import Mathlib

/-!
# memelord memory-store core: shallow embedding and verification

This file embeds the memory-store core of the `memelord` repository
(`packages/sdk/src/store.ts` and the scoring module) in Lean 4 and proves
properties of it.  JavaScript numbers are modelled as exact rationals `ℚ`;
`Math.sqrt` and the SQL `POWER` / `vector_distance_cos` primitives are opaque
to the algebra, so they are carried as function parameters of the
configuration.  SQL tables are modelled as lists of row records; BLOB vector
columns are modelled as the float32 array they encode (byte length =
4 × element count, as written by `vecBuf`).  Clock reads (`Date.now`) and
generated UUIDs are explicit parameters.
-/

set_option maxHeartbeats 1000000

namespace Memelord

/-! ## Scoring algebra (scoring module) -/

/-- Running baseline for z-score computation (`TaskBaseline` in types). -/
structure TaskBaseline where
  count : ℕ
  meanTokens : ℚ
  meanErrors : ℚ
  meanUserCorrections : ℚ
  m2Tokens : ℚ
  m2Errors : ℚ
  m2UserCorrections : ℚ
deriving DecidableEq, Repr

/-- `emptyBaseline()` from the scoring module. -/
def emptyBaseline : TaskBaseline :=
  { count := 0, meanTokens := 0, meanErrors := 0, meanUserCorrections := 0,
    m2Tokens := 0, m2Errors := 0, m2UserCorrections := 0 }

/-- `updateBaseline` — Welford's online mean/variance update. -/
def updateBaseline (b : TaskBaseline) (tokens errors userCorrections : ℚ) :
    TaskBaseline :=
  let n : ℕ := b.count + 1
  let dTokens := tokens - b.meanTokens
  let dErrors := errors - b.meanErrors
  let dUserCorr := userCorrections - b.meanUserCorrections
  let meanTokens := b.meanTokens + dTokens / n
  let meanErrors := b.meanErrors + dErrors / n
  let meanUserCorrections := b.meanUserCorrections + dUserCorr / n
  { count := n,
    meanTokens := meanTokens,
    meanErrors := meanErrors,
    meanUserCorrections := meanUserCorrections,
    m2Tokens := b.m2Tokens + dTokens * (tokens - meanTokens),
    m2Errors := b.m2Errors + dErrors * (errors - meanErrors),
    m2UserCorrections :=
      b.m2UserCorrections + dUserCorr * (userCorrections - meanUserCorrections) }

/-- `Math.max(a, b)` (also SQL `MAX(a, b)`) on numbers. -/
def jsMax (a b : ℚ) : ℚ := if a ≤ b then b else a

/-- `Math.min(a, b)` on numbers. -/
def jsMin (a b : ℚ) : ℚ := if a ≤ b then a else b

/-- `stddev(m2, count)` from the scoring module.  `sqrt` stands for
`Math.sqrt`; the JS `|| 1` fallback fires when the square root is `0`
(and on `NaN`, which exact arithmetic does not produce). -/
def stddev (sqrt : ℚ → ℚ) (m2 : ℚ) (count : ℕ) : ℚ :=
  if count < 2 then 1
  else
    let s := sqrt (m2 / ((count : ℚ) - 1))
    if s = 0 then 1 else s

/-- `computeTaskScore` — cold-start heuristic below 10 baseline tasks,
z-score regime from 10 on. -/
def computeTaskScore (sqrt : ℚ → ℚ) (baseline : TaskBaseline)
    (tokens errors userCorrections : ℚ) (completed : Bool) : ℚ :=
  let completedSignal : ℚ := if completed then 1 else -1
  if baseline.count < 10 then
    let tokenDelta :=
      if 0 < baseline.count then
        (baseline.meanTokens - tokens) / jsMax baseline.meanTokens 1
      else 0
    let errorDelta :=
      if 0 < baseline.count then
        (baseline.meanErrors - errors) / jsMax baseline.meanErrors 1
      else 0
    tokenDelta + errorDelta - userCorrections * (1/2) + completedSignal
  else
    let zTokens :=
      (tokens - baseline.meanTokens) / stddev sqrt baseline.m2Tokens baseline.count
    let zErrors :=
      (errors - baseline.meanErrors) / stddev sqrt baseline.m2Errors baseline.count
    let zUserCorr :=
      (userCorrections - baseline.meanUserCorrections) /
        stddev sqrt baseline.m2UserCorrections baseline.count
    let score := -zTokens - zErrors - zUserCorr + completedSignal
    score

/-- `computeCredit(taskScore, selfReportScore, numMemoriesRetrieved)`. -/
def computeCredit (taskScore selfReportScore : ℚ) (numMemoriesRetrieved : ℕ) : ℚ :=
  taskScore * (selfReportScore / 3) * (1 / jsMax (numMemoriesRetrieved : ℚ) 1)

/-- `updateWeight` — EMA update clamped to `[0.1, 5.0]`. -/
def updateWeight (oldWeight credit learningRate : ℚ) : ℚ :=
  jsMax (1/10) (jsMin 5 ((1 - learningRate) * oldWeight + learningRate * credit))

/-- Memory categories (`MemoryCategory` in types). -/
inductive MemoryCategory
  | correction | insight | user | consolidated | discovery
deriving DecidableEq, Repr

/-- User-input sources (`UserInputSource` in types). -/
inductive UserInputSource
  | user_denial | user_correction | user_input
deriving DecidableEq, Repr

/-- JS `x || d` on an optional number: the default replaces a missing value
and the falsy value `0`. -/
def jsOr (x : Option ℚ) (d : ℚ) : ℚ :=
  match x with
  | none => d
  | some v => if v = 0 then d else v

/-- `initialWeight(category, source?, tokensWasted?, avgTokensPerTask?)`. -/
def initialWeight (category : MemoryCategory) (source : Option UserInputSource)
    (tokensWasted avgTokensPerTask : Option ℚ) : ℚ :=
  match category with
  | .correction =>
      let avg := jsOr avgTokensPerTask 10000
      let cost := jsOr tokensWasted 0
      1 + cost / avg
  | .user =>
      match source with
      | some .user_denial => 2
      | some .user_correction => 5/2
      | some .user_input => 2
      | _ => 2
  | .insight => 1
  | .consolidated => 1
  | .discovery => 1

/-! ## Data model (store.ts, SCHEMA)

Tables are lists of row records.  The `embedding` BLOB column holds the
float32 array written by `vecBuf` (byte length = 4 × element count) or NULL.
The `category` column is `TEXT`: at run time any string can be stored, so it
is modelled as `String`. -/

/-- A row of the `memories` table. -/
structure MemoryRow where
  id : String
  content : String
  embedding : Option (List ℚ)
  category : String
  weight : ℚ
  initial_cost : ℚ
  created_at : ℤ
  last_retrieved : Option ℤ
  retrieval_count : ℕ
  source_task : Option String
deriving DecidableEq, Repr

/-- A row of the `tasks` table. -/
structure TaskRow where
  id : String
  description : Option String
  embedding : Option (List ℚ)
  tokens_used : Option ℚ
  tool_calls : Option ℚ
  errors : Option ℚ
  user_corrections : Option ℚ
  completed : Option ℚ
  task_score : Option ℚ
  started_at : Option ℤ
  finished_at : Option ℤ
deriving DecidableEq, Repr

/-- A row of the `memory_retrievals` table. -/
structure RetrievalRow where
  memory_id : String
  task_id : String
  similarity : Option ℚ
  self_report : Option ℚ
  credit : Option ℚ
deriving DecidableEq, Repr

/-- The database: the four tables.  `meta` only ever stores the serialized
baseline under the key `"baseline"`; JSON round-tripping is modelled as the
identity, so the value column holds the baseline record itself. -/
structure DB where
  memories : List MemoryRow
  tasks : List TaskRow
  retrievals : List RetrievalRow
  meta : List (String × TaskBaseline)
deriving DecidableEq, Repr

/-- Store configuration (`MemelordConfig`).  `embed` is the injected
embedder (its async result modelled as a pure value), `dist` is the SQL
`vector_distance_cos` primitive, `power` is SQL `POWER`, and `sqrt` is
`Math.sqrt`.  Note that the `MemoryStore` constructor never reads
`dimensions`; the field is carried here only because the configuration type
declares it. -/
structure Config where
  dimensions : ℕ
  topK : ℕ
  learningRate : ℚ
  decayRate : ℚ
  embed : String → List ℚ
  dist : List ℚ → List ℚ → ℚ
  power : ℚ → ℚ → ℚ
  sqrt : ℚ → ℚ

/-- Process-local store state: the database plus the in-memory fields of
`MemoryStore`. -/
structure StoreState where
  db : DB
  baseline : TaskBaseline
  currentTaskId : Option String

/-! ## Operations (store.ts) -/

/-- Byte length of an embedding BLOB as written by `vecBuf`
(4 bytes per float32 element). -/
def blobBytes (v : List ℚ) : ℕ := 4 * v.length

/-- The repair predicate of the one-time `init()` migration:
`embedding IS NOT NULL AND length(embedding) < 1536`.  The byte bound
`1536` is hard-coded in the SQL. -/
def needsRepair (m : MemoryRow) : Bool :=
  match m.embedding with
  | some v => blobBytes v < 1536
  | none => false

/-- The one-time migration run by `init()`:
`UPDATE memories SET embedding = NULL WHERE embedding IS NOT NULL AND
length(embedding) < 1536`.  Returns the new table and the change count. -/
def migrateEmbeddings (mems : List MemoryRow) : List MemoryRow × ℕ :=
  (mems.map fun m => if needsRepair m then { m with embedding := none } else m,
   (mems.filter needsRepair).length)

/-- `decay()`: one UPDATE multiplying every weight by `decayRate`, then one
DELETE of rows with `weight < 0.15 AND retrieval_count > 5` (the DELETE sees
the already-decayed weights).  Returns the surviving table and the
`{decayed, deleted}` change counts. -/
def decay (decayRate : ℚ) (mems : List MemoryRow) : List MemoryRow × ℕ × ℕ :=
  let decayed := mems.map fun m => { m with weight := m.weight * decayRate }
  let kept := decayed.filter fun m => !(m.weight < 3/20 && m.retrieval_count > 5)
  (kept, decayed.length, decayed.length - kept.length)

/-- `penalizeMemory(memoryId, factor)`:
`UPDATE memories SET weight = MAX(weight * ?, 0.1) WHERE id = ?`. -/
def penalizeMemory (mems : List MemoryRow) (memoryId : String) (factor : ℚ) :
    List MemoryRow :=
  mems.map fun m =>
    if m.id == memoryId then { m with weight := jsMax (m.weight * factor) (1/10) }
    else m

/-- `insertRawMemory(content, category, weight)`: INSERT with NULL embedding;
`initial_cost` and `retrieval_count` take their schema defaults.  `id` and
`now` are the generated UUID and clock reading. -/
def insertRawMemory (s : StoreState) (id content category : String) (weight : ℚ)
    (now : ℤ) : StoreState :=
  { s with db := { s.db with memories := s.db.memories ++
      [{ id := id, content := content, embedding := none, category := category,
         weight := weight, initial_cost := 0, created_at := now,
         last_retrieved := none, retrieval_count := 0,
         source_task := s.currentTaskId }] } }

/-- `purge(threshold)`: `DELETE FROM memories WHERE weight < ?`. -/
def purge (mems : List MemoryRow) (threshold : ℚ) : List MemoryRow × ℕ :=
  let kept := mems.filter fun m => !(m.weight < threshold)
  (kept, mems.length - kept.length)

/-- Net effect of `embedPending()` on the `memories` table: every row with a
NULL embedding gets `embed(content)` written back. -/
def embedPendingRows (cfg : Config) (mems : List MemoryRow) : List MemoryRow :=
  mems.map fun m =>
    match m.embedding with
    | none => { m with embedding := some (cfg.embed m.content) }
    | some _ => m

/-- `SELECT AVG(tokens_used) FROM tasks WHERE tokens_used IS NOT NULL`
(NULL when no row has a non-NULL `tokens_used`). -/
def avgTokens (tasks : List TaskRow) : Option ℚ :=
  let vals := tasks.filterMap (fun t => t.tokens_used)
  if vals.length = 0 then none else some (vals.sum / vals.length)

/-- `INSERT INTO meta ... ON CONFLICT(key) DO UPDATE`: `key` is the primary
key, so the upsert replaces the row for `key` (row order in a keyed table is
not observable). -/
def upsertMeta (meta : List (String × TaskBaseline)) (key : String)
    (value : TaskBaseline) : List (String × TaskBaseline) :=
  (meta.filter fun p => !(p.1 == key)) ++ [(key, value)]

/-- `SELECT value FROM meta WHERE key = ?`. -/
def metaLookup (meta : List (String × TaskBaseline)) (key : String) :
    Option TaskBaseline :=
  (meta.find? fun p => p.1 == key).map (fun p => p.2)

/-- A memory as returned to the caller (`Memory` in types).  `score` is the
cosine similarity at retrieval time, not the stored weight. -/
structure Memory where
  id : String
  content : String
  category : String
  weight : ℚ
  score : ℚ
  createdAt : ℤ
  retrievalCount : ℕ
deriving DecidableEq, Repr

/-- `StartTaskResult`. -/
structure StartTaskResult where
  taskId : String
  memories : List Memory
deriving DecidableEq, Repr

/-- The ORDER BY expression of the retrieval query:
`(1 - vector_distance_cos(embedding, q)) *
 POWER(decayRate, (now - COALESCE(last_retrieved, created_at)) / 86400.0)`. -/
def rank (cfg : Config) (q : List ℚ) (now : ℤ) (m : MemoryRow) : ℚ :=
  (1 - cfg.dist (m.embedding.getD []) q) *
    cfg.power cfg.decayRate
      (((now : ℚ) - ((m.last_retrieved.getD m.created_at : ℤ) : ℚ)) / 86400)

/-- Descending-rank order used by the retrieval query's ORDER BY ... DESC. -/
def rankGe (cfg : Config) (q : List ℚ) (now : ℤ) (a b : MemoryRow) : Prop :=
  rank cfg q now b ≤ rank cfg q now a

instance rankGe.instDecidable (cfg : Config) (q : List ℚ) (now : ℤ) :
    DecidableRel (rankGe cfg q now) :=
  fun a b => inferInstanceAs (Decidable (rank cfg q now b ≤ rank cfg q now a))

/-- Per-retrieved-memory bookkeeping in `startTask`:
`INSERT OR IGNORE INTO memory_retrievals (memory_id, task_id, similarity)`
and `UPDATE memories SET last_retrieved = now,
retrieval_count = retrieval_count + 1 WHERE id = ?`. -/
def recordRetrieval (now : ℤ) (taskId : String) (db : DB) (mem : Memory) : DB :=
  let rts :=
    if db.retrievals.any fun r => r.memory_id == mem.id && r.task_id == taskId
    then db.retrievals
    else db.retrievals ++
      [{ memory_id := mem.id, task_id := taskId, similarity := some mem.score,
         self_report := none, credit := none }]
  let mems := db.memories.map fun m =>
    if m.id == mem.id then
      { m with last_retrieved := some now, retrieval_count := m.retrieval_count + 1 }
    else m
  { db with memories := mems, retrievals := rts }

/-- `startTask(description)`: embed the description, run `embedPending()`,
insert the task row, retrieve the top-`topK` memories with non-NULL
embedding by descending `rank`, and record the retrievals.  `taskId` is the
generated UUID and `now` the clock reading.  The source performs no
dimension check on any embedder output. -/
def startTask (cfg : Config) (s : StoreState) (description : String)
    (taskId : String) (now : ℤ) : StoreState × StartTaskResult :=
  let taskEmbedding := cfg.embed description
  let mems0 := embedPendingRows cfg s.db.memories
  let taskRow : TaskRow :=
    { id := taskId, description := some description,
      embedding := some taskEmbedding, tokens_used := none, tool_calls := none,
      errors := none, user_corrections := none, completed := none,
      task_score := none, started_at := some now, finished_at := none }
  let candidates := mems0.filter fun m => m.embedding.isSome
  let ranked := candidates.insertionSort (rankGe cfg taskEmbedding now)
  let top := ranked.take cfg.topK
  let memsOut : List Memory := top.map fun r =>
    { id := r.id, content := r.content, category := r.category,
      weight := r.weight, score := 1 - cfg.dist (r.embedding.getD []) taskEmbedding,
      createdAt := r.created_at, retrievalCount := r.retrieval_count }
  let db0 := { s.db with memories := mems0, tasks := s.db.tasks ++ [taskRow] }
  let db1 := memsOut.foldl (recordRetrieval now taskId) db0
  ({ db := db1, baseline := s.baseline, currentTaskId := some taskId },
   { taskId := taskId, memories := memsOut })

/-- `ReportCorrectionInput`. -/
structure ReportCorrectionInput where
  lesson : String
  whatFailed : String
  whatWorked : String
  tokensWasted : Option ℚ
  toolsWasted : Option ℚ

/-- `reportCorrection(input)`: build the fixed content template, embed it,
compute the initial weight from the average `tokens_used` of finished tasks
(`?? 10000` when the AVG is NULL), and insert a `'correction'` memory. -/
def reportCorrection (cfg : Config) (s : StoreState)
    (input : ReportCorrectionInput) (id : String) (now : ℤ) : StoreState :=
  let content := input.lesson ++ "\n\nFailed approach: " ++ input.whatFailed ++
    "\nWorking approach: " ++ input.whatWorked
  let embedding := cfg.embed content
  let avg : ℚ := (avgTokens s.db.tasks).getD 10000
  let weight := initialWeight .correction none input.tokensWasted (some avg)
  { s with db := { s.db with memories := s.db.memories ++
      [{ id := id, content := content, embedding := some embedding,
         category := "correction", weight := weight,
         initial_cost := input.tokensWasted.getD 0, created_at := now,
         last_retrieved := none, retrieval_count := 0,
         source_task := s.currentTaskId }] } }

/-- `ReportUserInput`. -/
structure ReportUserInput where
  lesson : String
  source : UserInputSource

/-- `reportUserInput(input)`: embed the lesson and insert a `'user'` memory
with the source-table initial weight. -/
def reportUserInput (cfg : Config) (s : StoreState) (input : ReportUserInput)
    (id : String) (now : ℤ) : StoreState :=
  let embedding := cfg.embed input.lesson
  let weight := initialWeight .user (some input.source) none none
  { s with db := { s.db with memories := s.db.memories ++
      [{ id := id, content := input.lesson, embedding := some embedding,
         category := "user", weight := weight, initial_cost := 0,
         created_at := now, last_retrieved := none, retrieval_count := 0,
         source_task := s.currentTaskId }] } }

/-- One self-report entry (`SelfReportEntry`). -/
structure SelfReportEntry where
  memoryId : String
  score : ℚ
deriving DecidableEq, Repr

/-- `TaskEndInput`. -/
structure TaskEndInput where
  tokensUsed : ℚ
  toolCalls : ℚ
  errors : ℚ
  userCorrections : ℚ
  completed : Bool
  selfReport : Option (List SelfReportEntry)

/-- `UPDATE memories SET weight = ? WHERE id = ?` applied to one row. -/
def updMem (id : String) (w : ℚ) (r : MemoryRow) : MemoryRow :=
  if r.id == id then { r with weight := w } else r

/-- `UPDATE memory_retrievals SET self_report = ?, credit = ?
WHERE memory_id = ? AND task_id = ?` applied to one row. -/
def updRet (mid tid : String) (sr cr : Option ℚ) (r : RetrievalRow) : RetrievalRow :=
  if r.memory_id == mid && r.task_id == tid then
    { r with self_report := sr, credit := cr }
  else r

/-- Processing of one self-report entry inside `endTask`: compute the
credit, look up the memory's current weight (`SELECT weight ... WHERE id`),
update it via the EMA when the memory exists, and set
`memory_retrievals.self_report` / `credit` for `(memoryId, taskId)`. -/
def applySelfReportEntry (learningRate taskScore : ℚ) (k : ℕ) (taskId : String)
    (db : DB) (e : SelfReportEntry) : DB :=
  let credit := computeCredit taskScore e.score k
  let memRow := db.memories.find? fun m => m.id == e.memoryId
  let mems :=
    match memRow with
    | some m =>
        db.memories.map (updMem e.memoryId (updateWeight m.weight credit learningRate))
    | none => db.memories
  let rts := db.retrievals.map (updRet e.memoryId taskId (some e.score) (some credit))
  { db with memories := mems, retrievals := rts }

/-- `endTask(taskId, input)`: score the task against the pre-update
baseline, advance the in-memory baseline, update the task row, upsert the
baseline into `meta`, then process the self-report entries (skipped when the
list is absent or empty). -/
def endTask (cfg : Config) (s : StoreState) (taskId : String)
    (input : TaskEndInput) (now : ℤ) : StoreState :=
  let taskScore := computeTaskScore cfg.sqrt s.baseline input.tokensUsed
    input.errors input.userCorrections input.completed
  let baseline := updateBaseline s.baseline input.tokensUsed input.errors
    input.userCorrections
  let tasks := s.db.tasks.map fun t =>
    if t.id == taskId then
      { t with
        tokens_used := some input.tokensUsed,
        tool_calls := some input.toolCalls, errors := some input.errors,
        user_corrections := some input.userCorrections,
        completed := some (if input.completed then 1 else 0),
        task_score := some taskScore, finished_at := some now }
    else t
  let meta := upsertMeta s.db.meta "baseline" baseline
  let db0 := { s.db with tasks := tasks, meta := meta }
  let db1 :=
    match input.selfReport with
    | some entries =>
        if 0 < entries.length then
          entries.foldl
            (applySelfReportEntry cfg.learningRate taskScore entries.length taskId)
            db0
        else db0
    | none => db0
  { db := db1, baseline := baseline,
    currentTaskId := if s.currentTaskId = some taskId then none
      else s.currentTaskId }

/-! ## Concrete fixtures

Small concrete configurations and database states used to instantiate the
theorems below.  `cfg0` uses an embedder returning a fixed 1-dimensional
vector, a zero distance primitive, and identity `POWER`/`sqrt` stand-ins;
these satisfy the same typing the store assumes of the real primitives. -/

/-- A concrete configuration with the store's default `topK` (5),
`learningRate` (0.1) and `decayRate` (0.995). -/
def cfg0 : Config :=
  { dimensions := 8, topK := 5, learningRate := 1/10, decayRate := 199/200,
    embed := fun _ => [1], dist := fun _ _ => 0, power := fun _ _ => 1,
    sqrt := fun q => q }

/-- `cfg0` with an embedder returning a length-4 vector (while
`dimensions = 8`), the scenario of the spec's dimension-mismatch test. -/
def cfg4 : Config := { cfg0 with embed := fun _ => [1, 0, 0, 0] }

/-- An empty database. -/
def emptyDB : DB := { memories := [], tasks := [], retrievals := [], meta := [] }

/-- A fresh store state over an empty database. -/
def emptyState : StoreState :=
  { db := emptyDB, baseline := emptyBaseline, currentTaskId := none }

/-- A pending (NULL-embedding) memory with weight 1. -/
def m1 : MemoryRow :=
  { id := "m1", content := "c", embedding := none, category := "insight",
    weight := 1, initial_cost := 0, created_at := 0, last_retrieved := none,
    retrieval_count := 0, source_task := none }

/-- A memory whose embedding BLOB is a valid 8-dimensional vector
(32 bytes). -/
def m32 : MemoryRow := { m1 with id := "m32", embedding := some (List.replicate 8 (1:ℚ)) }

/-- A memory whose embedding BLOB is a 1-element vector (4 bytes). -/
def m4s : MemoryRow := { m1 with id := "m4", embedding := some [1] }

/-- A retrieval row pairing `m1` with task `"t1"`. -/
def r1 : RetrievalRow :=
  { memory_id := "m1", task_id := "t1", similarity := some 1,
    self_report := none, credit := none }

/-- A state holding `m1` and its retrieval row for task `"t1"`. -/
def sC1 : StoreState :=
  { db := { emptyDB with memories := [m1], retrievals := [r1] },
    baseline := emptyBaseline, currentTaskId := none }

/-- A task-end input with 20 user corrections, not completed, rating `m1`
with self-report 3. -/
def inC1 : TaskEndInput :=
  { tokensUsed := 0, toolCalls := 0, errors := 0, userCorrections := 20,
    completed := false, selfReport := some [{ memoryId := "m1", score := 3 }] }

/-- A benign task-end input: completed, no corrections, rating `m1`
with self-report 3. -/
def inW3 : TaskEndInput :=
  { tokensUsed := 0, toolCalls := 0, errors := 0, userCorrections := 0,
    completed := true, selfReport := some [{ memoryId := "m1", score := 3 }] }

/-- A state holding only the pending memory `m1`. -/
def sPend : StoreState :=
  { db := { emptyDB with memories := [m1] }, baseline := emptyBaseline,
    currentTaskId := none }

/-- A task row with only an id and start time. -/
def tA : TaskRow :=
  { id := "a1", description := none, embedding := none, tokens_used := none,
    tool_calls := none, errors := none, user_corrections := none,
    completed := none, task_score := none, started_at := some 0,
    finished_at := none }

/-- A finished task that used 0 tokens. -/
def tZero : TaskRow := { tA with id := "t0", tokens_used := some 0 }

/-- A state whose only task is the finished zero-token task `tZero`. -/
def s7 : StoreState :=
  { db := { emptyDB with tasks := [tZero] }, baseline := emptyBaseline,
    currentTaskId := none }

/-- A state whose only task is `tA` (id `"a1"`). -/
def s10 : StoreState :=
  { db := { emptyDB with tasks := [tA] }, baseline := emptyBaseline,
    currentTaskId := none }

/-- A correction report wasting 100 tokens. -/
def rcIn : ReportCorrectionInput :=
  { lesson := "l", whatFailed := "f", whatWorked := "w",
    tokensWasted := some 100, toolsWasted := none }

/-- A task-end input with no self-report. -/
def in10 : TaskEndInput :=
  { tokensUsed := 5, toolCalls := 1, errors := 0, userCorrections := 0,
    completed := true, selfReport := none }

/-- A baseline with 10 tasks, zero means and unit `M2`s. -/
def bW : TaskBaseline :=
  { count := 10, meanTokens := 0, meanErrors := 0, meanUserCorrections := 0,
    m2Tokens := 1, m2Errors := 1, m2UserCorrections := 1 }

/-- A baseline with 10 tasks whose token counts were all identical:
zero token variance (`m2Tokens = 0`), ordinary variance elsewhere. -/
def bZ : TaskBaseline :=
  { count := 10, meanTokens := 0, meanErrors := 0, meanUserCorrections := 0,
    m2Tokens := 0, m2Errors := 9, m2UserCorrections := 9 }

/-- The task row inserted by `startTask` (id, description, embedded
description, `started_at = now`, everything else NULL). -/
def newTaskRow (description taskId : String) (emb : List ℚ) (now : ℤ) : TaskRow :=
  { id := taskId, description := some description, embedding := some emb,
    tokens_used := none, tool_calls := none, errors := none,
    user_corrections := none, completed := none, task_score := none,
    started_at := some now, finished_at := none }

/-! ## Theorems -/

/-- `jsMax` is the lattice `max` on `ℚ`. -/
theorem jsMax_eq_max (a b : ℚ) : jsMax a b = max a b := by
  rw [jsMax, max_def]

/-- C9: for every rational weight (below 0.1 and above 5.0 included) and
every category string, `insertRawMemory` persists the row with `weight`
exactly as passed and `category` exactly as passed, with a NULL embedding:
no clamping to `[0.1, 5.0]` and no validation against the category enum
happens.  (`NaN` has no counterpart in exact arithmetic; the operative
content — the absence of any clamp or validation — holds for all rationals
and all strings.) -/
theorem C9_insertRawMemory_exact (s : StoreState) (id content category : String)
    (weight : ℚ) (now : ℤ) :
    ∃ row ∈ (insertRawMemory s id content category weight now).db.memories,
      row.id = id ∧ row.content = content ∧ row.category = category ∧
      row.weight = weight ∧ row.embedding = none := by
  exact ⟨_, List.mem_append_right _ (List.mem_singleton_self _),
    rfl, rfl, rfl, rfl, rfl⟩

/-- C6: `decay()` multiplies every memory's weight by `decayRate` and
deletes only memories whose (decayed) weight is below 0.15 and whose
`retrieval_count` exceeds 5; in particular a memory with
`retrieval_count ≤ 5` always survives, regardless of its weight. -/
theorem C6_decay_guard (rate : ℚ) (mems : List MemoryRow) :
    (∀ m ∈ mems, m.retrieval_count ≤ 5 →
      { m with weight := m.weight * rate } ∈ (decay rate mems).1) ∧
    (∀ m' ∈ (decay rate mems).1,
      ∃ m ∈ mems, m' = { m with weight := m.weight * rate }) ∧
    (∀ m ∈ mems, { m with weight := m.weight * rate } ∉ (decay rate mems).1 →
      m.weight * rate < 3/20 ∧ 5 < m.retrieval_count) := by
  refine ⟨?_, ?_, ?_⟩
  · intro m hm hrc
    refine List.mem_filter.mpr ⟨List.mem_map_of_mem _ hm, ?_⟩
    simp [Nat.not_lt.mpr hrc]
  · intro m' h
    obtain ⟨hmap, -⟩ := List.mem_filter.mp h
    obtain ⟨m, hm, rfl⟩ := List.mem_map.mp hmap
    exact ⟨m, hm, rfl⟩
  · intro m hm hnot
    have hp := mt (fun hp => List.mem_filter.mpr ⟨List.mem_map_of_mem _ hm, hp⟩) hnot
    simpa using hp

/-- C6 witness: the decayed copy of the never-retrieved memory `m1`
survives `decay`. -/
theorem C6_decay_guard_witness :
    { m1 with weight := m1.weight * (199/200) } ∈ (decay (199/200) [m1]).1 :=
  (C6_decay_guard (199/200) [m1]).1 m1 (by simp) (by simp [m1])

/-- C7 counterexample: with one finished task whose `tokens_used` is 0, the
average is 0 and the code divides by the `|| 10000` fallback, so a
correction wasting 100 tokens gets weight `1 + 100/10000 = 1.01`; the
claim's formula `1 + tokensWasted / max(avgTokensPerTask, 1)` gives 101. -/
theorem C7_counterexample :
    ((reportCorrection cfg0 s7 rcIn "m9" 0).db.memories.map fun m => m.weight)
        = [101/100] ∧
    (101/100 : ℚ) ≠ 1 + 100 / max (0:ℚ) 1 := by
  constructor
  · simp [reportCorrection, s7, emptyDB, tZero, tA, rcIn, cfg0, avgTokens,
      initialWeight, jsOr]
    norm_num
  · norm_num

/-- C7 (amended): the initial weight for a `correction` memory is
`1 + tokensWasted / avg` where the divisor `avg` is `avgTokensPerTask`
when that is nonzero and `10000` otherwise (`avgTokensPerTask` itself being
the AVG of `tokens_used` over finished tasks, `10000` when there are none);
`tokensWasted` counts as 0 when absent or 0.  The `user` weights are 2.0
(`user_denial`), 2.5 (`user_correction`), 2.0 (`user_input`), 2.0
otherwise. -/
theorem C7_amended_initialWeight (cost avg : Option ℚ) (cfg : Config)
    (s : StoreState) (input : ReportCorrectionInput) (id : String) (now : ℤ) :
    initialWeight .correction none cost avg = 1 + jsOr cost 0 / jsOr avg 10000 ∧
    initialWeight .user (some .user_denial) none none = 2 ∧
    initialWeight .user (some .user_correction) none none = 5/2 ∧
    initialWeight .user (some .user_input) none none = 2 ∧
    initialWeight .user none none none = 2 ∧
    ∃ row ∈ (reportCorrection cfg s input id now).db.memories,
      row.category = "correction" ∧
      row.weight = 1 + jsOr input.tokensWasted 0 /
        jsOr (some ((avgTokens s.db.tasks).getD 10000)) 10000 := by
  exact ⟨rfl, rfl, rfl, rfl, rfl, _,
    List.mem_append_right _ (List.mem_singleton_self _), rfl, rfl⟩

/-- C4 counterexample: with configured `dimensions = 8`, a 32-byte embedding
(exactly `8 × 4` bytes, not shorter) is still NULLed by the migration,
because the SQL hard-codes the byte bound 1536 (= 384 × 4). -/
theorem C4_counterexample :
    ¬ blobBytes (List.replicate 8 (1:ℚ)) < 8 * 4 ∧
    ((migrateEmbeddings [m32]).1.map fun m => m.embedding) = [none] := by
  constructor
  · simp [blobBytes]
  · simp [migrateEmbeddings, needsRepair, m32, m1, blobBytes]

/-- C4 (amended): the migration sets to NULL exactly those memory
embeddings that are non-NULL and shorter than 1536 bytes (4 × 384, the
default dimensionality) — irrespective of the configured `dimensions`;
NULLed memories become pending again. -/
theorem C4_amended (mems : List MemoryRow) (m : MemoryRow) (hm : m ∈ mems) :
    (∀ v, m.embedding = some v → blobBytes v < 1536 →
      { m with embedding := none } ∈ (migrateEmbeddings mems).1) ∧
    ((∀ v, m.embedding = some v → ¬ blobBytes v < 1536) →
      m ∈ (migrateEmbeddings mems).1) := by
  constructor
  · intro v hv hlt
    have hrep : needsRepair m = true := by simp [needsRepair, hv, hlt]
    have h2 := List.mem_map_of_mem
      (fun m => if needsRepair m then { m with embedding := none } else m) hm
    simpa [migrateEmbeddings, hrep] using h2
  · intro hv
    have hrep : needsRepair m = false := by
      cases he : m.embedding with
      | none => simp [needsRepair, he]
      | some v => simp [needsRepair, he]; exact Nat.le_of_not_lt (hv v he)
    have h2 := List.mem_map_of_mem
      (fun m => if needsRepair m then { m with embedding := none } else m) hm
    simpa [migrateEmbeddings, hrep] using h2

/-- C4 witness: a 4-byte embedding is NULLed by the migration. -/
theorem C4_amended_witness :
    { m4s with embedding := none } ∈ (migrateEmbeddings [m4s]).1 :=
  (C4_amended [m4s] m4s (by simp)).1 [1] rfl (by simp [blobBytes])

/-- C5: the code performs no dimension check.  With `dimensions = 8` and an
embedder returning a length-4 vector, `startTask` succeeds (no
`EmbedDimensionMismatch` error exists anywhere in the code) and the task
row persists, carrying the wrong-length vector. -/
theorem C5_no_dimension_check :
    (cfg4.embed "fix bug").length ≠ cfg4.dimensions ∧
    ((startTask cfg4 emptyState "fix bug" "t1" 0).1.db.tasks.map
      fun t => (t.id, t.embedding)) = [("t1", some [1, 0, 0, 0])] ∧
    (startTask cfg4 emptyState "fix bug" "t1" 0).2.taskId = "t1" := by
  refine ⟨by simp [cfg4, cfg0], ?_, rfl⟩
  simp [startTask, cfg4, cfg0, emptyState, emptyDB, embedPendingRows]

/-- C1 counterexample: starting from a memory with in-range weight 1, an
`endTask` with a catastrophic outcome clamps the weight to 0.1, and one
`decay()` then multiplies it to `0.1 × 0.995 = 0.0995 < 0.1` while the
memory (retrieval_count 0) survives deletion — so a weight leaves
`[0.1, 5.0]`. -/
theorem C1_counterexample :
    ((decay cfg0.decayRate (endTask cfg0 sC1 "t1" inC1 100).db.memories).1.map
      fun m => m.weight) = [199/2000] ∧
    ¬ ((1:ℚ)/10 ≤ 199/2000) := by
  constructor
  · simp [decay, endTask, sC1, inC1, cfg0, emptyDB, m1, r1, emptyBaseline,
      applySelfReportEntry, updMem, updRet, computeTaskScore, computeCredit,
      updateWeight, jsMax, jsMin, upsertMeta]
    norm_num
  · norm_num

/-- C8 counterexample: in a state whose only memory has a NULL embedding,
`startTask` still returns a non-empty memory list, because its internal
`embedPending()` pass embeds the pending memory before the retrieval
query runs. -/
theorem C8_counterexample :
    (sPend.db.memories.map fun m => m.embedding) = [none] ∧
    (startTask cfg0 sPend "d" "t1" 0).2.memories ≠ [] := by
  constructor
  · simp [sPend, emptyDB, m1]
  · simp [startTask, sPend, cfg0, emptyDB, m1, emptyBaseline, embedPendingRows,
      List.insertionSort, List.orderedInsert, rankGe, rank, recordRetrieval]

/-- The EMA update lands in `[0.1, 5.0]` unconditionally. -/
theorem updateWeight_range (w c lr : ℚ) :
    1/10 ≤ updateWeight w c lr ∧ updateWeight w c lr ≤ 5 := by
  unfold updateWeight jsMax jsMin
  constructor <;> split_ifs <;> linarith

/-- One self-report step keeps every stored weight in `[0.1, 5.0]`. -/
theorem applySelfReportEntry_range (lr ts : ℚ) (k : ℕ) (tid : String) (db : DB)
    (e : SelfReportEntry)
    (h : ∀ m ∈ db.memories, 1/10 ≤ m.weight ∧ m.weight ≤ 5) :
    ∀ m ∈ (applySelfReportEntry lr ts k tid db e).memories,
      1/10 ≤ m.weight ∧ m.weight ≤ 5 := by
  intro m hm
  rcases hfind : db.memories.find? (fun x => x.id == e.memoryId) with - | m0
  · simp only [applySelfReportEntry, hfind] at hm
    exact h m hm
  · simp only [applySelfReportEntry, hfind] at hm
    obtain ⟨r, hr, rfl⟩ := List.mem_map.mp hm
    by_cases hid : (r.id == e.memoryId) = true
    · simp only [updMem, hid, ite_true]
      exact updateWeight_range m0.weight _ lr
    · simp only [updMem, hid, ite_false, Bool.false_eq_true]
      exact h r hr

/-- Folding the self-report steps keeps every stored weight in
`[0.1, 5.0]`. -/
theorem foldl_selfReport_range (lr ts : ℚ) (k : ℕ) (tid : String)
    (entries : List SelfReportEntry) (db : DB)
    (h : ∀ m ∈ db.memories, 1/10 ≤ m.weight ∧ m.weight ≤ 5) :
    ∀ m ∈ (entries.foldl (applySelfReportEntry lr ts k tid) db).memories,
      1/10 ≤ m.weight ∧ m.weight ≤ 5 := by
  induction entries generalizing db with
  | nil => simpa using h
  | cons e es ih =>
      rw [List.foldl_cons]
      exact ih _ (applySelfReportEntry_range lr ts k tid db e h)

/-- C1 (amended): `endTask` always writes EMA-clamped weights, so it
preserves `weight ∈ [0.1, 5.0]`; `penalizeMemory` with a factor in `[0, 1]`
also preserves it.  (`decay` and `reportCorrection` do not: see the
counterexample — `decay` multiplies unclamped below 0.1 and
`reportCorrection` can insert above 5.0.) -/
theorem C1_amended :
    (∀ (cfg : Config) (s : StoreState) (taskId : String) (input : TaskEndInput)
        (now : ℤ),
      (∀ m ∈ s.db.memories, 1/10 ≤ m.weight ∧ m.weight ≤ 5) →
      ∀ m ∈ (endTask cfg s taskId input now).db.memories,
        1/10 ≤ m.weight ∧ m.weight ≤ 5) ∧
    (∀ (mems : List MemoryRow) (id : String) (factor : ℚ),
      0 ≤ factor → factor ≤ 1 →
      (∀ m ∈ mems, 1/10 ≤ m.weight ∧ m.weight ≤ 5) →
      ∀ m ∈ penalizeMemory mems id factor,
        1/10 ≤ m.weight ∧ m.weight ≤ 5) := by
  constructor
  · intro cfg s taskId input now h m hm
    rcases hsr : input.selfReport with - | entries
    · simp only [endTask, hsr] at hm
      exact h m hm
    · by_cases hlen : 0 < entries.length
      · simp only [endTask, hsr, if_pos hlen] at hm
        refine foldl_selfReport_range _ _ _ _ entries _ ?_ m hm
        exact h
      · simp only [endTask, hsr, if_neg hlen] at hm
        exact h m hm
  · intro mems id factor hf0 hf1 h m hm
    unfold penalizeMemory at hm
    obtain ⟨r, hr, rfl⟩ := List.mem_map.mp hm
    by_cases hid : (r.id == id) = true
    · simp only [hid, ite_true]
      have h0 : (0:ℚ) ≤ r.weight := le_trans (by norm_num) (h r hr).1
      have hmul : r.weight * factor ≤ r.weight := by
        simpa using mul_le_mul_of_nonneg_left hf1 h0
      have h5 := (h r hr).2
      refine ⟨?_, ?_⟩ <;> unfold jsMax <;> split_ifs <;> linarith
    · simp only [hid, ite_false, Bool.false_eq_true]
      exact h r hr

/-- C2 counterexample: at `bZ` — ten baseline tasks with identical token
counts, so the sample variance of tokens is 0 — the claim's z-score formula
divides `tokens − μ` by `sqrt(M2/(count−1)) = 0` (in exact field arithmetic
that division is 0; in JS floats it is an infinity), while the code's
`|| 1` fallback replaces the zero standard deviation by 1.  For a completed
task with 1 token the code returns 0 but the claimed formula yields 1, so
the claim fails on an ordinary zero-variance baseline.  The identity
function stands in for `Math.sqrt`; it agrees with it at the two sample
variances that occur here (`0/9 = 0` and `9/9 = 1`). -/
theorem C2_counterexample :
    computeTaskScore (fun q => q) bZ 1 0 0 true = 0 ∧
    -((1 - bZ.meanTokens) /
        ((fun q : ℚ => q) (bZ.m2Tokens / ((bZ.count : ℚ) - 1))))
      - (0 - bZ.meanErrors) /
        ((fun q : ℚ => q) (bZ.m2Errors / ((bZ.count : ℚ) - 1)))
      - (0 - bZ.meanUserCorrections) /
        ((fun q : ℚ => q) (bZ.m2UserCorrections / ((bZ.count : ℚ) - 1)))
      + 1 = 1 ∧
    (0 : ℚ) ≠ 1 := by
  refine ⟨?_, by norm_num [bZ], by norm_num⟩
  simp [computeTaskScore, stddev, bZ]

/-- C2 (amended): `computeTaskScore` follows the cold-start heuristic
formula exactly when `baseline.count < 10` (ratio terms 0 at count 0,
completed signal ±1) and, for every baseline with `baseline.count ≥ 10`,
the z-score form in which each z divides by `sqrt(M2/(count−1))` when that
value is nonzero and by 1 otherwise (the code's `|| 1` fallback; the
claimed `count < 2` fallback is unreachable in this regime).  The regime
switches exactly between counts 9 and 10. -/
theorem C2_taskScore_regimes_amended (sqrt : ℚ → ℚ) (b : TaskBaseline)
    (tokens errors userCorrections : ℚ) (completed : Bool) :
    (b.count < 10 →
      computeTaskScore sqrt b tokens errors userCorrections completed =
        (if b.count = 0 then 0
         else (b.meanTokens - tokens) / max b.meanTokens 1) +
        (if b.count = 0 then 0
         else (b.meanErrors - errors) / max b.meanErrors 1) -
        (1/2) * userCorrections + (if completed then 1 else -1)) ∧
    (10 ≤ b.count →
      computeTaskScore sqrt b tokens errors userCorrections completed =
        -((tokens - b.meanTokens) /
            (if sqrt (b.m2Tokens / ((b.count : ℚ) - 1)) = 0 then 1
             else sqrt (b.m2Tokens / ((b.count : ℚ) - 1))))
        - (errors - b.meanErrors) /
            (if sqrt (b.m2Errors / ((b.count : ℚ) - 1)) = 0 then 1
             else sqrt (b.m2Errors / ((b.count : ℚ) - 1)))
        - (userCorrections - b.meanUserCorrections) /
            (if sqrt (b.m2UserCorrections / ((b.count : ℚ) - 1)) = 0 then 1
             else sqrt (b.m2UserCorrections / ((b.count : ℚ) - 1)))
        + (if completed then 1 else -1)) := by
  constructor
  · intro hlt
    unfold computeTaskScore
    rw [if_pos hlt]
    rcases Nat.eq_zero_or_pos b.count with h0 | hpos
    · simp only [h0, Nat.lt_irrefl, if_false, if_pos rfl, Nat.pos_iff_ne_zero]
      ring_nf
      simp [h0]
    · rw [if_pos hpos, if_pos hpos, if_neg (Nat.pos_iff_ne_zero.mp hpos),
        if_neg (Nat.pos_iff_ne_zero.mp hpos), jsMax_eq_max, jsMax_eq_max]
      ring
  · intro h10
    unfold computeTaskScore stddev
    rw [if_neg (Nat.not_lt.mpr h10)]
    have h2 : ¬ b.count < 2 := by omega
    rw [if_neg h2, if_neg h2, if_neg h2]

/-- `find?` over an append whose first part contains no match. -/
theorem find?_append_none {α : Type} (p : α → Bool) (l1 l2 : List α)
    (h : l1.find? p = none) : (l1 ++ l2).find? p = l2.find? p := by
  induction l1 with
  | nil => rfl
  | cons a l ih =>
      cases hpa : p a with
      | true =>
          rw [List.find?_cons_of_pos _ hpa] at h
          exact Option.noConfusion h
      | false =>
          rw [List.find?_cons_of_neg _ (by simp [hpa])] at h
          rw [List.cons_append, List.find?_cons_of_neg _ (by simp [hpa])]
          exact ih h

/-- Upserting a key into `meta` and looking the same key up yields the new
value. -/
theorem metaLookup_upsertMeta (meta : List (String × TaskBaseline))
    (k : String) (v : TaskBaseline) :
    metaLookup (upsertMeta meta k v) k = some v := by
  unfold metaLookup upsertMeta
  rw [find?_append_none]
  · simp [List.find?]
  · rw [List.find?_eq_none]
    intro x hx
    have hne := (List.mem_filter.mp hx).2
    simpa using hne

/-- A map that fixes every element of a list is the identity on it. -/
theorem map_eq_self_of_fixed {α : Type} (l : List α) (f : α → α)
    (h : ∀ a ∈ l, f a = a) : l.map f = l := by
  induction l with
  | nil => rfl
  | cons a l ih =>
      rw [List.map_cons, h a (by simp), ih (fun x hx => h x (by simp [hx]))]

/-- Self-report processing never touches the `tasks` table or `meta`. -/
theorem foldl_selfReport_tasks_meta (lr ts : ℚ) (k : ℕ) (tid : String)
    (entries : List SelfReportEntry) (db : DB) :
    (entries.foldl (applySelfReportEntry lr ts k tid) db).tasks = db.tasks ∧
    (entries.foldl (applySelfReportEntry lr ts k tid) db).meta = db.meta := by
  induction entries generalizing db with
  | nil => exact ⟨rfl, rfl⟩
  | cons e es ih =>
      rw [List.foldl_cons]
      exact ⟨(ih _).1.trans rfl, (ih _).2.trans rfl⟩

/-- The `tasks` table after `endTask` is the UPDATE applied to every row
(a no-op on rows whose id differs). -/
theorem endTask_tasks (cfg : Config) (s : StoreState) (taskId : String)
    (input : TaskEndInput) (now : ℤ) :
    (endTask cfg s taskId input now).db.tasks =
      s.db.tasks.map (fun t =>
        if (t.id == taskId) = true then
          { t with
            tokens_used := some input.tokensUsed,
            tool_calls := some input.toolCalls, errors := some input.errors,
            user_corrections := some input.userCorrections,
            completed := some (if input.completed then 1 else 0),
            task_score := some (computeTaskScore cfg.sqrt s.baseline
              input.tokensUsed input.errors input.userCorrections
              input.completed),
            finished_at := some now }
        else t) := by
  rcases hsr : input.selfReport with - | entries
  · simp only [endTask, hsr]
  · by_cases hlen : 0 < entries.length
    · simp only [endTask, hsr, if_pos hlen]
      exact (foldl_selfReport_tasks_meta _ _ _ _ entries _).1
    · simp only [endTask, hsr, if_neg hlen]

/-- The `meta` table after `endTask` holds the upserted new baseline. -/
theorem endTask_meta (cfg : Config) (s : StoreState) (taskId : String)
    (input : TaskEndInput) (now : ℤ) :
    (endTask cfg s taskId input now).db.meta =
      upsertMeta s.db.meta "baseline"
        (updateBaseline s.baseline input.tokensUsed input.errors
          input.userCorrections) := by
  rcases hsr : input.selfReport with - | entries
  · simp only [endTask, hsr]
  · by_cases hlen : 0 < entries.length
    · simp only [endTask, hsr, if_pos hlen]
      exact (foldl_selfReport_tasks_meta _ _ _ _ entries _).2
    · simp only [endTask, hsr, if_neg hlen]

/-- C10: `endTask` on a task id matching no task row completes without
error, leaves the `tasks` table unchanged (the UPDATE matches zero rows),
still advances the in-memory baseline count by 1, and persists the new
baseline to `meta` under the key `"baseline"`. -/
theorem C10_endTask_missing_task (cfg : Config) (s : StoreState)
    (taskId : String) (input : TaskEndInput) (now : ℤ)
    (h : ∀ t ∈ s.db.tasks, t.id ≠ taskId) :
    (endTask cfg s taskId input now).db.tasks = s.db.tasks ∧
    (endTask cfg s taskId input now).baseline.count = s.baseline.count + 1 ∧
    metaLookup (endTask cfg s taskId input now).db.meta "baseline" =
      some ((endTask cfg s taskId input now).baseline) := by
  refine ⟨?_, rfl, ?_⟩
  · rw [endTask_tasks]
    apply map_eq_self_of_fixed
    intro t ht
    have hne : (t.id == taskId) = false := beq_eq_false_iff_ne.mpr (h t ht)
    simp [hne]
  · rw [endTask_meta]
    exact metaLookup_upsertMeta _ _ _

/-- C10 witness: ending the unknown task `"tX"` in a state holding only
task `"a1"` leaves the `tasks` table unchanged. -/
theorem C10_endTask_missing_task_witness :
    (endTask cfg0 s10 "tX" in10 7).db.tasks = s10.db.tasks :=
  (C10_endTask_missing_task cfg0 s10 "tX" in10 7
    (by
      intro t ht
      simp only [s10, emptyDB] at ht
      simp at ht
      subst ht
      simp [tA])).1

/-- The retrieval bookkeeping (`last_retrieved`/`retrieval_count` UPDATE)
changes neither ids nor embeddings of stored memories. -/
theorem recordRetrieval_proj (now : ℤ) (tid : String) (db : DB) (mem : Memory) :
    ((recordRetrieval now tid db mem).memories.map fun m => (m.id, m.embedding))
      = db.memories.map fun m => (m.id, m.embedding) := by
  simp only [recordRetrieval, List.map_map]
  refine List.map_congr_left ?_
  intro a _
  by_cases hid : (a.id == mem.id) = true <;> simp [Function.comp, hid]

/-- Folded retrieval bookkeeping changes neither ids nor embeddings. -/
theorem foldl_recordRetrieval_proj (now : ℤ) (tid : String) (l : List Memory)
    (db : DB) :
    ((l.foldl (recordRetrieval now tid) db).memories.map
      fun m => (m.id, m.embedding)) =
      db.memories.map fun m => (m.id, m.embedding) := by
  induction l generalizing db with
  | nil => rfl
  | cons a l ih => rw [List.foldl_cons, ih, recordRetrieval_proj]

/-- Retrieval bookkeeping never touches the `tasks` table. -/
theorem foldl_recordRetrieval_tasks (now : ℤ) (tid : String) (l : List Memory)
    (db : DB) :
    (l.foldl (recordRetrieval now tid) db).tasks = db.tasks := by
  induction l generalizing db with
  | nil => rfl
  | cons a l ih => rw [List.foldl_cons]; exact (ih _).trans rfl

/-- From equal id/embedding projections, a member with a non-NULL
embedding on one side has a counterpart row on the other side. -/
theorem exists_row_of_proj_mem (l l2 : List MemoryRow)
    (hp : l2.map (fun m => (m.id, m.embedding)) =
      l.map (fun m => (m.id, m.embedding)))
    {r : MemoryRow} (hr : r ∈ l) (hremb : r.embedding.isSome = true) :
    ∃ row ∈ l2, row.id = r.id ∧ row.embedding.isSome = true := by
  have hmm : (r.id, r.embedding) ∈ l2.map (fun m => (m.id, m.embedding)) := by
    rw [hp]
    exact List.mem_map_of_mem _ hr
  obtain ⟨row, hrow, heq⟩ := List.mem_map.mp hmm
  obtain ⟨h1, h2⟩ := Prod.mk.injEq .. |>.mp heq
  exact ⟨row, hrow, h1, by rw [h2]; exact hremb⟩

/-- C8 (amended): every memory returned by `startTask` corresponds to a
stored row with a non-NULL embedding (the retrieval query filters
`embedding IS NOT NULL`), and when the memories table is empty `startTask`
returns `(taskId, [])` while still inserting the task row.  A memory whose
embedding is NULL at call time, however, is embedded by the internal
`embedPending()` pass and can then be retrieved (see the
counterexample). -/
theorem C8_amended (cfg : Config) (s : StoreState) (description taskId : String)
    (now : ℤ) :
    (∀ mem ∈ (startTask cfg s description taskId now).2.memories,
      ∃ row ∈ (startTask cfg s description taskId now).1.db.memories,
        row.id = mem.id ∧ row.embedding.isSome = true) ∧
    (s.db.memories = [] →
      (startTask cfg s description taskId now).2.memories = [] ∧
      ∃ t ∈ (startTask cfg s description taskId now).1.db.tasks,
        t.id = taskId ∧ t.started_at = some now) := by
  constructor
  · intro mem hmem
    simp only [startTask] at hmem ⊢
    obtain ⟨r, hr, rfl⟩ := List.mem_map.mp hmem
    have hrs := List.mem_of_mem_take hr
    have hrc := (List.mem_insertionSort _).mp hrs
    obtain ⟨hrm, hremb⟩ := List.mem_filter.mp hrc
    exact exists_row_of_proj_mem _ _
      (foldl_recordRetrieval_proj now taskId _ _) hrm hremb
  · intro h0
    constructor
    · simp [startTask, h0, embedPendingRows, List.insertionSort]
    · have hmem2 : newTaskRow description taskId (cfg.embed description) now ∈
          (startTask cfg s description taskId now).1.db.tasks := by
        simp only [startTask]
        rw [foldl_recordRetrieval_tasks]
        exact List.mem_append_right _ (List.mem_singleton_self _)
      exact ⟨_, hmem2, rfl, rfl⟩

/-- C8 witness: on an empty memories table, `startTask` retrieves
nothing. -/
theorem C8_amended_witness :
    (startTask cfg0 emptyState "d" "t1" 0).2.memories = [] :=
  ((C8_amended cfg0 emptyState "d" "t1" 0).2 rfl).1

/-- `updMem` preserves row ids. -/
theorem updMem_id (id : String) (w : ℚ) (r : MemoryRow) :
    (updMem id w r).id = r.id := by
  unfold updMem
  split <;> rfl

/-- `find?` by id commutes with the id-preserving weight update. -/
theorem find?_map_updMem (l : List MemoryRow) (id id2 : String) (w : ℚ) :
    (l.map (updMem id w)).find? (fun m => m.id == id2) =
      (l.find? (fun m => m.id == id2)).map (updMem id w) := by
  induction l with
  | nil => rfl
  | cons a l ih =>
      have h2 : ((updMem id w a).id == id2) = (a.id == id2) := by rw [updMem_id]
      cases h : (a.id == id2) <;> simp [List.find?_cons, h, h2, ih]

/-- Processing the targeted entry EMA-updates the found memory's weight. -/
theorem applySelfReportEntry_find_target (lr ts : ℚ) (k : ℕ) (tid : String)
    (db : DB) (e : SelfReportEntry) (m : MemoryRow)
    (hfind : db.memories.find? (fun x => x.id == e.memoryId) = some m) :
    (applySelfReportEntry lr ts k tid db e).memories.find?
        (fun x => x.id == e.memoryId) =
      some { m with
        weight := updateWeight m.weight (computeCredit ts e.score k) lr } := by
  have hp : (m.id == e.memoryId) = true := by simpa using List.find?_some hfind
  simp only [applySelfReportEntry, hfind]
  rw [find?_map_updMem, hfind]
  simp [updMem, hp]

/-- Processing an entry with a different memory id leaves `find?` by our id
unchanged. -/
theorem applySelfReportEntry_find_other (lr ts : ℚ) (k : ℕ) (tid : String)
    (db : DB) (e : SelfReportEntry) (id : String) (hne : e.memoryId ≠ id) :
    (applySelfReportEntry lr ts k tid db e).memories.find?
        (fun x => x.id == id) =
      db.memories.find? (fun x => x.id == id) := by
  rcases hfind : db.memories.find? (fun x => x.id == e.memoryId) with - | m0
  · simp only [applySelfReportEntry, hfind]
  · simp only [applySelfReportEntry, hfind]
    rw [find?_map_updMem]
    rcases hf2 : db.memories.find? (fun x => x.id == id) with - | r
    · rw [hf2]
      rfl
    · rw [hf2]
      have hr : r.id = id := by simpa using List.find?_some hf2
      have hcond : (r.id == e.memoryId) = false := by
        rw [hr]
        exact beq_eq_false_iff_ne.mpr fun hh => hne hh.symm
      simp [updMem, hcond]

/-- A retrieval row not matching `(memoryId, taskId)` passes through one
self-report step unchanged. -/
theorem applySelfReportEntry_ret_other (lr ts : ℚ) (k : ℕ) (tid : String)
    (db : DB) (e : SelfReportEntry) (x : RetrievalRow)
    (hx : x ∈ db.retrievals)
    (hne : x.memory_id ≠ e.memoryId ∨ x.task_id ≠ tid) :
    x ∈ (applySelfReportEntry lr ts k tid db e).retrievals := by
  have hcond : (x.memory_id == e.memoryId && x.task_id == tid) = false := by
    rcases hne with h | h <;> simp [beq_eq_false_iff_ne.mpr h]
  have h2 : updRet e.memoryId tid (some e.score)
      (some (computeCredit ts e.score k)) x = x := by
    simp [updRet, hcond]
  simp only [applySelfReportEntry]
  rw [← h2]
  exact List.mem_map_of_mem _ hx

/-- The retrieval row matching `(memoryId, taskId)` receives the
self-report score and the credit. -/
theorem applySelfReportEntry_ret_target (lr ts : ℚ) (k : ℕ) (tid : String)
    (db : DB) (e : SelfReportEntry) (x : RetrievalRow)
    (hx : x ∈ db.retrievals) (h1 : x.memory_id = e.memoryId)
    (h2 : x.task_id = tid) :
    { x with
      self_report := some e.score,
      credit := some (computeCredit ts e.score k) } ∈
      (applySelfReportEntry lr ts k tid db e).retrievals := by
  have hcond : (x.memory_id == e.memoryId && x.task_id == tid) = true := by
    simp [h1, h2]
  have h3 : updRet e.memoryId tid (some e.score)
      (some (computeCredit ts e.score k)) x =
      { x with
        self_report := some e.score,
        credit := some (computeCredit ts e.score k) } := by
    simp [updRet, hcond]
  simp only [applySelfReportEntry]
  rw [← h3]
  exact List.mem_map_of_mem _ hx

/-- Entries avoiding a memory id leave `find?` by that id and that id's
retrieval rows unchanged through the whole fold. -/
theorem foldl_selfReport_untouched (lr ts : ℚ) (k : ℕ) (tid : String)
    (entries : List SelfReportEntry) (db : DB) (id : String)
    (hid : ∀ e ∈ entries, e.memoryId ≠ id) :
    ((entries.foldl (applySelfReportEntry lr ts k tid) db).memories.find?
        (fun x => x.id == id) = db.memories.find? (fun x => x.id == id)) ∧
    (∀ x ∈ db.retrievals, x.memory_id = id →
      x ∈ (entries.foldl (applySelfReportEntry lr ts k tid) db).retrievals) := by
  induction entries generalizing db with
  | nil => exact ⟨rfl, fun x hx _ => hx⟩
  | cons e es ih =>
      have hne := hid e (by simp)
      have hih := ih (applySelfReportEntry lr ts k tid db e)
        (fun e2 he2 => hid e2 (by simp [he2]))
      rw [List.foldl_cons]
      constructor
      · rw [hih.1, applySelfReportEntry_find_other _ _ _ _ _ _ _ hne]
      · intro x hx hmid
        have hxne : x.memory_id ≠ e.memoryId := by
          rw [hmid]
          exact fun hh => hne hh.symm
        exact hih.2 _
          (applySelfReportEntry_ret_other _ _ _ _ _ _ _ hx (Or.inl hxne)) hmid

/-- Over a duplicate-free entry list, the fold gives the rated memory the
EMA-updated weight and stamps its retrieval row, independently of the other
entries. -/
theorem foldl_selfReport_hit (lr ts : ℚ) (k : ℕ) (tid : String)
    (entries : List SelfReportEntry) (db : DB) (e : SelfReportEntry)
    (m : MemoryRow) (r : RetrievalRow)
    (hnd : (entries.map (fun x => x.memoryId)).Nodup)
    (he : e ∈ entries)
    (hfind : db.memories.find? (fun x => x.id == e.memoryId) = some m)
    (hr : r ∈ db.retrievals) (hr1 : r.memory_id = e.memoryId)
    (hr2 : r.task_id = tid) :
    ((entries.foldl (applySelfReportEntry lr ts k tid) db).memories.find?
        (fun x => x.id == e.memoryId) =
      some { m with
        weight := updateWeight m.weight (computeCredit ts e.score k) lr }) ∧
    ({ r with
        self_report := some e.score,
        credit := some (computeCredit ts e.score k) } ∈
      (entries.foldl (applySelfReportEntry lr ts k tid) db).retrievals) := by
  induction entries generalizing db with
  | nil => cases he
  | cons e2 es ih =>
      rw [List.foldl_cons]
      rw [List.map_cons, List.nodup_cons] at hnd
      obtain ⟨hnotin, hnd2⟩ := hnd
      rcases List.mem_cons.mp he with rfl | hees
      · have hstep := applySelfReportEntry_find_target lr ts k tid db e m hfind
        have hretstep :=
          applySelfReportEntry_ret_target lr ts k tid db e r hr hr1 hr2
        have hno : ∀ x ∈ es, x.memoryId ≠ e.memoryId := by
          intro x hx heq
          exact hnotin (heq ▸ List.mem_map_of_mem _ hx)
        have hun := foldl_selfReport_untouched lr ts k tid es
          (applySelfReportEntry lr ts k tid db e) e.memoryId hno
        exact ⟨hun.1.trans hstep, hun.2 _ hretstep hr1⟩
      · have hne : e2.memoryId ≠ e.memoryId := by
          intro heq
          exact hnotin (heq ▸ List.mem_map_of_mem (fun x => x.memoryId) hees)
        have hfind2 : (applySelfReportEntry lr ts k tid db e2).memories.find?
            (fun x => x.id == e.memoryId) = some m := by
          rw [applySelfReportEntry_find_other lr ts k tid db e2 e.memoryId hne,
            hfind]
        have hrrne : r.memory_id ≠ e2.memoryId := by
          rw [hr1]
          exact fun hh => hne hh.symm
        have hrr : r ∈ (applySelfReportEntry lr ts k tid db e2).retrievals :=
          applySelfReportEntry_ret_other lr ts k tid db e2 r hr (Or.inl hrrne)
        exact ih _ hnd2 hees hfind2 hrr

/-- C3: for a non-empty self-report of `k` entries with pairwise distinct
memory ids, `endTask` gives each rated memory with old weight `w` and
self-report score `s` the new weight
`clamp((1−α)·w + α·credit, 0.1, 5.0)` with
`credit = taskScore · (s/3) · (1/max(k,1))` and learning rate `α`, and
stamps the corresponding `memory_retrievals` row with
`self_report = s` and `credit = credit`. -/
theorem C3_endTask_selfReport (cfg : Config) (s : StoreState) (taskId : String)
    (input : TaskEndInput) (now : ℤ) (entries : List SelfReportEntry)
    (e : SelfReportEntry) (m : MemoryRow) (r : RetrievalRow)
    (hsr : input.selfReport = some entries)
    (hnd : (entries.map (fun x => x.memoryId)).Nodup)
    (he : e ∈ entries)
    (hfind : s.db.memories.find? (fun x => x.id == e.memoryId) = some m)
    (hr : r ∈ s.db.retrievals) (hr1 : r.memory_id = e.memoryId)
    (hr2 : r.task_id = taskId) :
    ((endTask cfg s taskId input now).db.memories.find?
        (fun x => x.id == e.memoryId) =
      some { m with
        weight := updateWeight m.weight
          (computeCredit
            (computeTaskScore cfg.sqrt s.baseline input.tokensUsed
              input.errors input.userCorrections input.completed)
            e.score entries.length)
          cfg.learningRate }) ∧
    ({ r with
        self_report := some e.score,
        credit := some (computeCredit
          (computeTaskScore cfg.sqrt s.baseline input.tokensUsed
            input.errors input.userCorrections input.completed)
          e.score entries.length) } ∈
      (endTask cfg s taskId input now).db.retrievals) := by
  have hlen : 0 < entries.length := List.length_pos.mpr (List.ne_nil_of_mem he)
  simp only [endTask, hsr, if_pos hlen]
  refine foldl_selfReport_hit _ _ _ _ entries _ e m r hnd he ?_ ?_ hr1 hr2
  · exact hfind
  · exact hr

/-- C3 witness: in `sC1` (task score 1, one entry, credit 1), `m1` rated 3
gets weight `clamp(0.9·1 + 0.1·1) = 1`. -/
theorem C3_endTask_selfReport_witness :
    (endTask cfg0 sC1 "t1" inW3 0).db.memories.find? (fun x => x.id == "m1") =
      some { m1 with
        weight := updateWeight m1.weight
          (computeCredit (computeTaskScore cfg0.sqrt sC1.baseline 0 0 0 true) 3 1)
          cfg0.learningRate } :=
  (C3_endTask_selfReport cfg0 sC1 "t1" inW3 0 [⟨"m1", 3⟩] ⟨"m1", 3⟩ m1 r1
    rfl (by simp) (by simp)
    (by simp [sC1, emptyDB, m1, List.find?])
    (by simp [sC1, emptyDB]) rfl rfl).1

/-- C2 witness: at a 10-task baseline with zero means and unit `M2`s
(sample variance 1/9) and identity `sqrt` stand-in, the z-score regime
formula evaluates to −8 for a completed task with 1 token. -/
theorem C2_taskScore_regimes_amended_witness :
    computeTaskScore (fun q => q) bW 1 0 0 true = -8 := by
  have h := (C2_taskScore_regimes_amended (fun q => q) bW 1 0 0 true).2
    (by norm_num [bW])
  rw [h]
  norm_num [bW]

/-- C1 witness: after a benign `endTask` on the in-range state `sC1`, the
weight of `m1` is still in `[0.1, 5.0]`. -/
theorem C1_amended_witness : (1:ℚ)/10 ≤ m1.weight ∧ m1.weight ≤ 5 :=
  C1_amended.1 cfg0 sC1 "t1" inW3 0
    (by
      intro m hm
      simp only [sC1, emptyDB] at hm
      simp at hm
      subst hm
      norm_num [m1])
    m1
    (by
      simp [endTask, sC1, inW3, cfg0, emptyDB, m1, r1, emptyBaseline,
        applySelfReportEntry, updMem, updRet, computeTaskScore, computeCredit,
        updateWeight, jsMax, jsMin, upsertMeta]
      norm_num)

end Memelord
